import Mathlib

/-!
# Verification of the med-agent orchestration core

Shallow embedding of the conversational orchestration layer of the
`med-agent` repository (`backend/app/api/chat.py`,
`backend/app/services/llm_service.py`, `backend/app/services/mcp_service.py`,
`backend/app/models/chat.py`, `backend/app/models/mcp.py`).

Python strings are sequences of code points; they are embedded as Lean
`String` values, with `s[:n]` embedded as taking the first `n` characters
and `len(s)` as `String.length` (the number of characters). External
collaborators (the OpenAI client, Elasticsearch, HTTP tool servers) are
embedded as oracle functions supplying their observable outcomes; the code
of the repository that consumes them is translated directly.
-/

set_option autoImplicit false

namespace MedAgent

/-- Python string slicing `s[:n]`: the first `n` characters of `s`. -/
def pyTake (s : String) (n : Nat) : String := ⟨s.data.take n⟩

/-! ## Data model (`backend/app/models/chat.py`, `backend/app/models/mcp.py`) -/

/-- `ChatMode(str, Enum)` with values `"ask"`, `"rag"`, `"agent"`. -/
inductive ChatMode
  | ask
  | rag
  | agent
deriving DecidableEq, Repr

/-- The string-to-member coercion performed when a `ChatMode` field is
validated: only the three enum values parse. -/
def chatModeOfString (s : String) : Option ChatMode :=
  if s = "ask" then some ChatMode.ask
  else if s = "rag" then some ChatMode.rag
  else if s = "agent" then some ChatMode.agent
  else none

/-- A retrieved document as produced by `semantic_search`
(`elasticsearch_service.py`): keys `id`, `score`, `title`, `chunk`, `url`,
`metadata`.  Scores and metadata values are carried opaquely by the
orchestrator, so scores are embedded as integers and metadata as a
string-to-string association list. -/
structure RetrievedDoc where
  id : String
  title : String
  chunk : String
  score : Int
  metadata : List (String × String)
  url : Option String
deriving DecidableEq, Repr

/-- `MCPServer` pydantic model. -/
structure MCPServer where
  id : String
  name : String
  description : Option String := none
  base_url : String
  api_key : Option String := none
  is_active : Bool := true
  tools : List String := []
deriving DecidableEq, Repr

/-- `MCPToolCall` pydantic model.  Tool-call parameter mappings are carried
opaquely, embedded as string-to-string association lists. -/
structure MCPToolCall where
  tool_name : String
  server_id : String
  parameters : List (String × String)
deriving DecidableEq, Repr

/-- `MCPToolResponse` pydantic model.  The `Any` result payload is carried
opaquely, embedded as a string (the JSON body returned by the server). -/
structure MCPToolResponse where
  success : Bool
  result : Option String
  error : Option String := none
  execution_time : Option Nat := none
deriving DecidableEq, Repr

/-! ## Context Assembler (`llm_service.py`, `format_rag_context`) -/

/-- Python `metadata.get(k, d)`. -/
def dictGetD (m : List (String × String)) (k : String) (d : String) : String :=
  match m.lookup k with
  | some v => v
  | none => d

/-- One conditional labeled line of a context block: appended only when the
value is non-empty (a Python `if s:` test on a string is an `s ≠ ""`
test). -/
def fieldLine (label s : String) : String :=
  if s ≠ "" then label ++ s ++ "\n" else ""

/-- One numbered block of `format_rag_context`: `Document {i}: {title}` plus
the conditional `Content` / `Uses` / `Side Effects` / `Substitutes` lines
built from the chunk text and the metadata (the Python locals `content`,
`uses`, `side_effects`, `substitutes` are inlined). -/
def contextPart (i : Nat) (doc : RetrievedDoc) : String :=
  "Document " ++ toString i ++ ": " ++ doc.title ++ "\n"
    ++ fieldLine "Content: " doc.chunk
    ++ fieldLine "Uses: " (dictGetD doc.metadata "uses" "")
    ++ fieldLine "Side Effects: " (dictGetD doc.metadata "side_effects" "")
    ++ fieldLine "Substitutes: " (dictGetD doc.metadata "substitutes" "")

/-- Python `sep.join(parts)`. -/
def pyJoin (sep : String) : List String → String
  | [] => ""
  | [p] => p
  | p :: rest => p ++ sep ++ pyJoin sep rest

/-- `LLMService.format_rag_context`: empty input gives the fixed sentinel,
otherwise the 1-based numbered blocks joined by `"\n---\n"`. -/
def format_rag_context (documents : List RetrievedDoc) : String :=
  if documents.isEmpty then "No relevant documents found."
  else
    pyJoin "\n---\n"
      (documents.enum.map (fun p => contextPart (p.1 + 1) p.2))

/-! ## MCP service (`mcp_service.py`) -/

/-- The server registry `self.servers : Dict[str, MCPServer]`, an
insertion-ordered mapping from server id to server. -/
abbrev Registry := List (String × MCPServer)

/-- `MCPService.get_active_servers`: the registered servers, in registry
order, filtered to the active ones. -/
def get_active_servers (reg : Registry) : List MCPServer :=
  (reg.map Prod.snd).filter (fun s => s.is_active)

/-- Outcome of the HTTP POST a tool call performs, supplied by the external
tool server: either a JSON body (with the elapsed seconds) or a raised
exception (HTTP error status, transport failure or timeout). -/
inductive NetOutcome
  | ok (body : String) (elapsed : Nat)
  | exn (msg : String) (elapsed : Nat)
deriving DecidableEq, Repr

/-- `MCPService.call_tool`: unknown server and inactive server return failed
responses; otherwise the HTTP call's outcome is converted to a success or a
captured-exception failure. -/
def call_tool (reg : Registry) (net : MCPToolCall → NetOutcome)
    (tool_call : MCPToolCall) : MCPToolResponse :=
  match reg.lookup tool_call.server_id with
  | none =>
      { success := false, result := none,
        error := some ("Server " ++ tool_call.server_id ++ " not found") }
  | some server =>
      if server.is_active = false then
        { success := false, result := none,
          error := some ("Server " ++ server.name ++ " is not active") }
      else
        match net tool_call with
        | NetOutcome.ok body elapsed =>
            { success := true, result := some body, error := none,
              execution_time := some elapsed }
        | NetOutcome.exn msg elapsed =>
            { success := false, result := none, error := some msg,
              execution_time := some elapsed }

/-- The static `function_map` of `execute_function_call`, mapping function
names to capability categories. -/
def function_map : List (String × String) :=
  [("web_search", "web-browse"),
   ("read_file", "filesystem"),
   ("pubmed_search", "pubmed"),
   ("neo4j_query", "neo4j"),
   ("marklogic_query", "marklogic")]

/-- Python `a in b` on strings: substring containment. -/
def strContains (hay needle : String) : Bool :=
  decide (needle.data <:+: hay.data)

/-- Python `s.lower()`: lowercase character by character (the embedded
names are ASCII). -/
def pyLower (s : String) : String := ⟨s.data.map Char.toLower⟩

/-- The server-selection loop of `execute_function_call`: the first active
server whose lowercased name contains the lowercased category. -/
def find_target_server (reg : Registry) (server_type : String) : Option MCPServer :=
  (get_active_servers reg).find?
    (fun s => strContains (pyLower s.name) (pyLower server_type))

/-- The mapping returned by `execute_function_call` (keys `success`,
`result`, `error`, `execution_time`, `server`, each present only on the
branches that set it). -/
structure ExecResult where
  success : Bool
  result : Option String := none
  error : Option String := none
  execution_time : Option Nat := none
  server : Option String := none
deriving DecidableEq, Repr

/-- `MCPService.execute_function_call`: map the function name to a category,
find the first matching active server, perform the tool call, and fold the
outcome into a result mapping; every failure branch returns a mapping with
`success = false` and an error string. -/
def execute_function_call (reg : Registry) (net : MCPToolCall → NetOutcome)
    (function_name : String) (arguments : List (String × String)) : ExecResult :=
  match function_map.lookup function_name with
  | none =>
      { success := false, error := some ("Unknown function: " ++ function_name) }
  | some server_type =>
      match find_target_server reg server_type with
      | none =>
          { success := false,
            error := some ("No active server found for " ++ function_name) }
      | some target_server =>
          let response :=
            call_tool reg net
              { tool_name := function_name, server_id := target_server.id,
                parameters := arguments }
          if response.success then
            { success := true, result := response.result,
              execution_time := response.execution_time,
              server := some target_server.name }
          else
            { success := false, error := response.error,
              server := some target_server.name }

/-- `MCPService.remove_server`: delete the entry when the id is registered
and report whether a deletion happened. -/
def remove_server (reg : Registry) (server_id : String) : Bool × Registry :=
  if (reg.lookup server_id).isSome then
    (true, reg.eraseP (fun p => p.1 = server_id))
  else
    (false, reg)

/-- `MCPService.deactivate_server`: clear the `is_active` flag of the entry
when the id is registered and report whether it was found. -/
def deactivate_server (reg : Registry) (server_id : String) : Bool × Registry :=
  if (reg.lookup server_id).isSome then
    (true,
     reg.map (fun p =>
       if p.1 = server_id then (p.1, { p.2 with is_active := false }) else p))
  else
    (false, reg)

/-! ## Generation service (`llm_service.py`) -/

/-- What the external chat-completions client does for one request, as
observed through the SDK: the stream of content fragments it delivers
(their concatenation is the non-streaming completion text), and whether the
call raises.  A raised exception in streaming mode interrupts the fragment
stream; in non-streaming mode it pre-empts the single result. -/
structure GenOutcome where
  chunks : List String
  failure : Option String := none
deriving DecidableEq, Repr

/-- The `response_text += chunk` accumulation of the non-streaming handlers:
concatenation of the yielded chunks. -/
def joinChunks : List String → String
  | [] => ""
  | s :: rest => s ++ joinChunks rest

/-- The text `LLMService.generate_response` yields when the underlying
client raises (`except` branch, lines 145-147). -/
def genErrorText (msg : String) : String := "Error generating response: " ++ msg

/-- `LLMService.generate_response`: the sequence of strings the generator
yields.  Streaming yields each delivered fragment; non-streaming yields the
full completion once.  The surrounding `try` swallows any client exception
and yields its message as an ordinary string, so the generator never raises
to its caller. -/
def generate_response (stream : Bool) (gen : GenOutcome) : List String :=
  if stream then
    gen.chunks ++
      (match gen.failure with
       | some msg => [genErrorText msg]
       | none => [])
  else
    match gen.failure with
    | some msg => [genErrorText msg]
    | none => [joinChunks gen.chunks]

/-- One tool invocation requested by the Generation Client
(`tool_call["function"]["name"]` with its `json.loads`-decoded
arguments). -/
structure ToolCallReq where
  name : String
  arguments : List (String × String)
deriving DecidableEq, Repr

/-- One chunk yielded by `generate_response_with_tools`: a `content`,
`tool_calls` or `error` dictionary. -/
inductive AgentChunk
  | content (s : String)
  | tool_calls (calls : List ToolCallReq)
  | error (s : String)
deriving DecidableEq, Repr

/-- What the external tool-calling client does for one request: the
content / tool-call chunks it streams, and whether it raises. -/
structure AgentGenOutcome where
  chunks : List AgentChunk
  failure : Option String := none
deriving DecidableEq, Repr

/-- `LLMService.generate_response_with_tools`: yields the client's content
and tool-call chunks; a raised exception is swallowed and yielded as a
final `error` chunk, so the generator never raises to its caller. -/
def generate_response_with_tools (gen : AgentGenOutcome) : List AgentChunk :=
  gen.chunks ++
    (match gen.failure with
     | some msg => [AgentChunk.error (genErrorText msg)]
     | none => [])

/-! ## Chat orchestrator (`api/chat.py`) -/

/-- One source entry of the `sources` payload (`handle_rag_mode`). -/
structure SourceInfo where
  id : String
  title : String
  content : String
  score : Int
  metadata : List (String × String)
  url : Option String
deriving DecidableEq, Repr

/-- One entry of the agent-mode action trace: `{action, parameters, result,
success}` on the normal path (the `error`-keyed shape only arises when the
tool-execution body itself raises, which `execute_function_call` never
does). -/
structure TraceEntry where
  action : String
  parameters : List (String × String)
  result : Option ExecResult := none
  error : Option String := none
  success : Bool
deriving DecidableEq, Repr

/-- One line-delimited event of the streaming protocol: `{content}`,
`{sources}`, `{action}`, `{error}`, or the terminal `{done: true}` which in
agent mode also carries the accumulated `tool_calls` trace. -/
inductive StreamEvent
  | content (text : String)
  | sources (srcs : List SourceInfo)
  | action (entry : TraceEntry)
  | error (msg : String)
  | done (tool_calls : Option (List TraceEntry))
deriving DecidableEq, Repr

/-- The non-streaming `ChatResponse` pydantic model. -/
structure ChatResponse where
  response : String
  mode : ChatMode
  sources : Option (List SourceInfo) := none
  tool_calls : Option (List TraceEntry) := none
deriving DecidableEq, Repr

/-- What the `/api/chat` endpoint hands back: a streaming response (the
sequence of emitted events), a `ChatResponse`, or an `HTTPException`. -/
inductive ChatResult
  | streaming (events : List StreamEvent)
  | response (resp : ChatResponse)
  | httpError (statusCode : Nat) (detail : String)
deriving DecidableEq, Repr

/-- The external clients a request may invoke, recorded in invocation
order to state that a path makes no external call. -/
inductive ExtCall
  | retrieval
  | generation
  | toolServer (function_name : String)
deriving DecidableEq, Repr

/-- `handle_ask_mode` with `stream=True`: the generator yields one
`content` event per chunk, then `done` (the `except` branch is dead
because `generate_response` never raises). -/
def handle_ask_stream (gen : GenOutcome) : List StreamEvent :=
  (generate_response true gen).map StreamEvent.content ++ [StreamEvent.done none]

/-- `handle_ask_mode` with `stream=False`: the yielded chunks are
concatenated into one `ChatResponse`. -/
def handle_ask_nostream (gen : GenOutcome) : ChatResponse :=
  { response := joinChunks (generate_response false gen), mode := ChatMode.ask }

/-- The caller-facing preview of one source in the streamed `sources`
payload: `doc["chunk"][:200] + "..."` when the chunk exceeds 200
characters, the chunk itself otherwise (`handle_rag_mode`, line 122). -/
def sourcePreview (chunk : String) : String :=
  if 200 < chunk.length then pyTake chunk 200 ++ "..." else chunk

/-- A streamed source entry: preview content, other fields copied. -/
def streamSourceOf (doc : RetrievedDoc) : SourceInfo :=
  { id := doc.id, title := doc.title, content := sourcePreview doc.chunk,
    score := doc.score, metadata := doc.metadata, url := doc.url }

/-- A non-streaming source entry: the full chunk, untruncated. -/
def fullSourceOf (doc : RetrievedDoc) : SourceInfo :=
  { id := doc.id, title := doc.title, content := doc.chunk,
    score := doc.score, metadata := doc.metadata, url := doc.url }

/-- `handle_rag_mode` with `stream=True`.  The generation oracle is a
function of the context string actually passed to `generate_response`:
first the `sources` event, then one `content` event per generation chunk,
then `done`. -/
def handle_rag_stream (search_results : List RetrievedDoc)
    (gen : String → GenOutcome) : List StreamEvent :=
  let context := format_rag_context search_results
  StreamEvent.sources (search_results.map streamSourceOf)
    :: (generate_response true (gen context)).map StreamEvent.content
    ++ [StreamEvent.done none]

/-- `handle_rag_mode` with `stream=False`: the chunks are concatenated and
returned with full untruncated sources. -/
def handle_rag_nostream (search_results : List RetrievedDoc)
    (gen : String → GenOutcome) : ChatResponse :=
  let context := format_rag_context search_results
  { response := joinChunks (generate_response false (gen context)),
    mode := ChatMode.rag,
    sources := some (search_results.map fullSourceOf) }

/-- One executed tool call of the agent loop: `execute_function_call` plus
the `{action, parameters, result, success}` trace entry built from it. -/
def agentActionOf (reg : Registry) (net : MCPToolCall → NetOutcome)
    (call : ToolCallReq) : TraceEntry :=
  let result := execute_function_call reg net call.name call.arguments
  { action := call.name, parameters := call.arguments, result := some result,
    success := result.success }

/-- The streaming agent generator loop over the yielded chunks, carrying
the accumulated `action_trace`; after the last chunk it yields the final
`{tool_calls, done}` event. -/
def agentLoop (reg : Registry) (net : MCPToolCall → NetOutcome) :
    List AgentChunk → List TraceEntry → List StreamEvent
  | [], action_trace => [StreamEvent.done (some action_trace)]
  | AgentChunk.content s :: rest, action_trace =>
      StreamEvent.content s :: agentLoop reg net rest action_trace
  | AgentChunk.tool_calls calls :: rest, action_trace =>
      let entries := calls.map (agentActionOf reg net)
      entries.map StreamEvent.action ++ agentLoop reg net rest (action_trace ++ entries)
  | AgentChunk.error s :: rest, action_trace =>
      StreamEvent.error s :: agentLoop reg net rest action_trace

/-- `handle_agent_mode` with `stream=True`. -/
def handle_agent_stream (reg : Registry) (net : MCPToolCall → NetOutcome)
    (gen : AgentGenOutcome) : List StreamEvent :=
  agentLoop reg net (generate_response_with_tools gen) []

/-- The non-streaming agent loop, accumulating `response_text` and
`tool_calls` (error chunks are silently dropped on this path). -/
def agentCollect (reg : Registry) (net : MCPToolCall → NetOutcome) :
    List AgentChunk → String → List TraceEntry → String × List TraceEntry
  | [], response_text, tool_calls => (response_text, tool_calls)
  | AgentChunk.content s :: rest, response_text, tool_calls =>
      agentCollect reg net rest (response_text ++ s) tool_calls
  | AgentChunk.tool_calls calls :: rest, response_text, tool_calls =>
      agentCollect reg net rest response_text
        (tool_calls ++ calls.map (agentActionOf reg net))
  | AgentChunk.error _ :: rest, response_text, tool_calls =>
      agentCollect reg net rest response_text tool_calls

/-- `handle_agent_mode` with `stream=False`. -/
def handle_agent_nostream (reg : Registry) (net : MCPToolCall → NetOutcome)
    (gen : AgentGenOutcome) : ChatResponse :=
  let collected := agentCollect reg net (generate_response_with_tools gen) "" []
  { response := collected.1, mode := ChatMode.agent,
    tool_calls := some collected.2 }

/-- The external tool-server HTTP calls an agent-mode request performs:
one per tool invocation whose function name maps to a category with a
matching active server (only then does `execute_function_call` reach
`call_tool`'s network request). -/
def agentToolNetCalls (reg : Registry) (chunks : List AgentChunk) : List ExtCall :=
  chunks.flatMap (fun c =>
    match c with
    | AgentChunk.tool_calls calls =>
        calls.filterMap (fun call =>
          match function_map.lookup call.name with
          | none => none
          | some server_type =>
              match find_target_server reg server_type with
              | none => none
              | some _ => some (ExtCall.toolServer call.name))
    | _ => [])

/-- The `/api/chat` endpoint (`chat` in `api/chat.py`): dispatch on the
request's mode string.  A mode outside the three `ChatMode` values is
rejected with the 400 `Unsupported chat mode` `HTTPException`.  Alongside
the result, the external client invocations of the taken path are recorded
in order: the RAG path calls the embedding client and the search engine
(both retrieval) then the generation client; the ask and agent paths call
the generation client, the agent path additionally each reached tool
server. -/
def chat (rawMode : String) (stream : Bool) (reg : Registry)
    (net : MCPToolCall → NetOutcome) (genAsk : GenOutcome)
    (search_results : List RetrievedDoc) (genRag : String → GenOutcome)
    (genAgent : AgentGenOutcome) : ChatResult × List ExtCall :=
  match chatModeOfString rawMode with
  | some ChatMode.ask =>
      (if stream then ChatResult.streaming (handle_ask_stream genAsk)
       else ChatResult.response (handle_ask_nostream genAsk),
       [ExtCall.generation])
  | some ChatMode.rag =>
      (if stream then ChatResult.streaming (handle_rag_stream search_results genRag)
       else ChatResult.response (handle_rag_nostream search_results genRag),
       [ExtCall.retrieval, ExtCall.retrieval, ExtCall.generation])
  | some ChatMode.agent =>
      (if stream then ChatResult.streaming (handle_agent_stream reg net genAgent)
       else ChatResult.response (handle_agent_nostream reg net genAgent),
       ExtCall.generation
         :: agentToolNetCalls reg (generate_response_with_tools genAgent))
  | none =>
      (ChatResult.httpError 400 ("Unsupported chat mode: " ++ rawMode), [])

/-! ## Round-limited agent orchestrator (spec §4.3, §7, §8.6)

The source's agent path makes a single call to the Generation Client and
never feeds tool results back, so it has no tool-round loop at all; the
spec flags the missing maximum round count as a design gap and mandates a
configurable limit for a conforming reimplementation.  The loop below is
therefore modelled from the spec rather than translated from `src`. -/

/-- Modelled from the spec: the recommended default maximum number of tool
rounds per request ("recommend a default such as 8"). -/
def defaultMaxToolRounds : Nat := 8

/-- Modelled from the spec: what the Generation Client does at one round of
the agent loop — either finish with text or request another batch of tool
invocations. -/
inductive RoundOut
  | finish (text : String)
  | tools (calls : List ToolCallReq)
deriving DecidableEq, Repr

/-- Whether a round output requests tool calls. -/
def RoundOut.requestsTools : RoundOut → Bool
  | RoundOut.finish _ => false
  | RoundOut.tools _ => true

/-- The tool invocations a round output requests. -/
def RoundOut.callsOf : RoundOut → List ToolCallReq
  | RoundOut.finish _ => []
  | RoundOut.tools calls => calls

/-- Result of a round-limited agent run: the emitted event stream and the
final accumulated action trace. -/
structure AgentRunResult where
  events : List StreamEvent
  trace : List TraceEntry
deriving DecidableEq, Repr

/-- Modelled from the spec: the round-limited agent orchestrator missing
from `src`.  Each round consults the Generation Client; tool requests are
dispatched through the source's `execute_function_call`, their entries
appended to the trace and emitted as `Action` events; when the remaining
round budget is exhausted the stream is terminated with an `Error` event
carrying the `ToolRoundLimitExceeded` message, keeping the accumulated
trace. -/
def agentRoundLoop (reg : Registry) (net : MCPToolCall → NetOutcome)
    (client : Nat → RoundOut) :
    Nat → Nat → List TraceEntry → List StreamEvent → AgentRunResult
  | 0, _, trace, events =>
      ⟨events ++ [StreamEvent.error "ToolRoundLimitExceeded"], trace⟩
  | Nat.succ fuel, round, trace, events =>
      match client round with
      | RoundOut.finish text =>
          ⟨events ++ [StreamEvent.content text, StreamEvent.done (some trace)], trace⟩
      | RoundOut.tools calls =>
          let entries := calls.map (agentActionOf reg net)
          agentRoundLoop reg net client fuel (round + 1) (trace ++ entries)
            (events ++ entries.map StreamEvent.action)

/-- Modelled from the spec: run the round-limited agent orchestrator with a
configured maximum number of tool rounds. -/
def run_agent_with_limit (reg : Registry) (net : MCPToolCall → NetOutcome)
    (client : Nat → RoundOut) (maxRounds : Nat) : AgentRunResult :=
  agentRoundLoop reg net client maxRounds 0 [] []

/-- The trace entries produced by dispatching the tool requests of `fuel`
consecutive client rounds starting at round `round`. -/
def roundEntries (reg : Registry) (net : MCPToolCall → NetOutcome)
    (client : Nat → RoundOut) : Nat → Nat → List TraceEntry
  | _, 0 => []
  | round, Nat.succ fuel =>
      ((client round).callsOf).map (agentActionOf reg net)
        ++ roundEntries reg net client (round + 1) fuel

/-! ## Observation functions and test fixtures -/

/-- Whether a stream event is the terminal `done` event. -/
def isDoneEvent : StreamEvent → Bool
  | StreamEvent.done _ => true
  | _ => false

/-- The content text an event contributes to the aggregate response. -/
def eventText : StreamEvent → String
  | StreamEvent.content s => s
  | _ => ""

/-- The aggregate content text of an event stream. -/
def streamText : List StreamEvent → String
  | [] => ""
  | e :: es => eventText e ++ streamText es

/-- The content text an agent chunk contributes. -/
def chunkText : AgentChunk → String
  | AgentChunk.content s => s
  | _ => ""

/-- The aggregate content text of a chunk sequence. -/
def chunksText : List AgentChunk → String
  | [] => ""
  | c :: cs => chunkText c ++ chunksText cs

/-- The events one agent chunk makes the streaming loop emit. -/
def chunkEvents (reg : Registry) (net : MCPToolCall → NetOutcome) :
    AgentChunk → List StreamEvent
  | AgentChunk.content s => [StreamEvent.content s]
  | AgentChunk.tool_calls calls =>
      (calls.map (agentActionOf reg net)).map StreamEvent.action
  | AgentChunk.error s => [StreamEvent.error s]

/-- The trace entries one agent chunk appends. -/
def chunkTrace (reg : Registry) (net : MCPToolCall → NetOutcome) :
    AgentChunk → List TraceEntry
  | AgentChunk.content _ => []
  | AgentChunk.tool_calls calls => calls.map (agentActionOf reg net)
  | AgentChunk.error _ => []

/-- Whether a function name maps to a capability category but no active
registered server matches that category. -/
def noMatchingActiveServer (reg : Registry) (function_name : String) : Bool :=
  match function_map.lookup function_name with
  | some server_type => (find_target_server reg server_type).isNone
  | none => false

/-- A tool-server network stub that always fails (used by the concrete
witnesses; the properties hold for every oracle). -/
def netStub : MCPToolCall → NetOutcome :=
  fun _ => NetOutcome.exn "connection refused" 0

/-- A Generation Client stub that requests another tool call on every
round. -/
def alwaysToolsClient : Nat → RoundOut :=
  fun _ => RoundOut.tools [{ name := "web_search", arguments := [("query", "x")] }]

/-- A 250-character chunk fixture. -/
def chunk250 : String := String.mk (List.replicate 250 'x')

/-- A 150-character chunk fixture. -/
def chunk150 : String := String.mk (List.replicate 150 'y')

/-- A retrieved document with a 250-character chunk. -/
def doc250 : RetrievedDoc :=
  { id := "d250", title := "Long", chunk := chunk250, score := 2,
    metadata := [], url := none }

/-- A retrieved document with a 150-character chunk. -/
def doc150 : RetrievedDoc :=
  { id := "d150", title := "Short", chunk := chunk150, score := 1,
    metadata := [], url := none }

/-- A registered active pubmed server fixture. -/
def pubmedServer : MCPServer :=
  { id := "srv-1", name := "pubmed-server", base_url := "http://pubmed.local" }

/-- A registered active filesystem server fixture. -/
def fsServer : MCPServer :=
  { id := "srv-2", name := "filesystem-server", base_url := "http://fs.local" }

/-- A two-server registry fixture. -/
def regTwo : Registry := [("srv-1", pubmedServer), ("srv-2", fsServer)]

/-- A deterministic tool-calling generation stub fixture. -/
def agentGenFix : AgentGenOutcome :=
  { chunks := [AgentChunk.content "Searching. ",
               AgentChunk.tool_calls
                 [{ name := "pubmed_search", arguments := [("query", "aspirin")] }],
               AgentChunk.content "Done."] }

/-- A deterministic plain generation stub fixture. -/
def genAskFix : GenOutcome := { chunks := ["Hello ", "world"] }

/-- A deterministic context-dependent generation stub fixture. -/
def genRagFix : String → GenOutcome := fun _ => { chunks := ["From context."] }

/-! ## Shared lemmas -/

theorem streamText_append (a b : List StreamEvent) :
    streamText (a ++ b) = streamText a ++ streamText b := by
  induction a with
  | nil => simp [streamText]
  | cons e es ih => simp [streamText, ih, String.append_assoc]

theorem streamText_map_content (cs : List String) :
    streamText (cs.map StreamEvent.content) = joinChunks cs := by
  induction cs with
  | nil => rfl
  | cons s rest ih => simp [streamText, joinChunks, eventText, ih]

theorem streamText_map_action (es : List TraceEntry) :
    streamText (es.map StreamEvent.action) = "" := by
  induction es with
  | nil => rfl
  | cons e rest ih => simp [streamText, eventText, ih]

theorem filter_done_map_content (cs : List String) :
    (cs.map StreamEvent.content).filter isDoneEvent = [] := by
  induction cs with
  | nil => rfl
  | cons s rest ih => simp [List.filter, isDoneEvent, ih]

theorem call_tool_failure_has_error (reg : Registry) (net : MCPToolCall → NetOutcome)
    (tool_call : MCPToolCall) (h : (call_tool reg net tool_call).success = false) :
    (call_tool reg net tool_call).error.isSome = true := by
  unfold call_tool at *
  cases hl : reg.lookup tool_call.server_id with
  | none => simp [hl]
  | some server =>
      cases ha : server.is_active with
      | false => simp [hl, ha]
      | true =>
          cases hn : net tool_call with
          | ok body elapsed => simp [hl, ha, hn] at h
          | exn msg elapsed => simp [hl, ha, hn]

/-! ## Claim theorems -/

/-- Claim C8 counterexample: the empty-input sentinel of
`format_rag_context` is not the string "no relevant documents found"
quoted by the claim; the code capitalizes it and appends a period. -/
theorem format_rag_context_sentinel_text_counterexample :
    format_rag_context [] ≠ "no relevant documents found" := by decide

/-- Claim C8 (amended): `format_rag_context` applied to the empty document
sequence returns the fixed sentinel string "No relevant documents found."
(never the empty string), and it is deterministic: for every ordered input
sequence, two applications yield byte-identical output. -/
theorem format_rag_context_empty_sentinel_and_deterministic :
    format_rag_context [] = "No relevant documents found."
      ∧ format_rag_context [] ≠ ""
      ∧ ∀ documents : List RetrievedDoc,
          format_rag_context documents = format_rag_context documents :=
  ⟨by decide, by decide, fun _ => rfl⟩

/-- Claim C6: a request whose mode string is none of "ask", "rag", "agent"
is rejected by the `chat` endpoint with the 400 `Unsupported chat mode`
error, and no external client call (retrieval, generation or tool server)
is recorded for it. -/
theorem unsupported_mode_rejected_before_external_calls
    (rawMode : String) (stream : Bool) (reg : Registry)
    (net : MCPToolCall → NetOutcome) (genAsk : GenOutcome)
    (search_results : List RetrievedDoc) (genRag : String → GenOutcome)
    (genAgent : AgentGenOutcome)
    (h1 : rawMode ≠ "ask") (h2 : rawMode ≠ "rag") (h3 : rawMode ≠ "agent") :
    chat rawMode stream reg net genAsk search_results genRag genAgent
      = (ChatResult.httpError 400 ("Unsupported chat mode: " ++ rawMode), []) := by
  unfold chat chatModeOfString
  simp [h1, h2, h3]

/-- Witness for C6 at the concrete mode string "chaos". -/
theorem unsupported_mode_rejected_witness :
    "chaos" ≠ "ask"
      ∧ chat "chaos" true [] netStub { chunks := [] } []
          (fun _ => { chunks := [] }) { chunks := [] }
        = (ChatResult.httpError 400 ("Unsupported chat mode: " ++ "chaos"), []) :=
  ⟨by decide,
   unsupported_mode_rejected_before_external_calls "chaos" true [] netStub
     { chunks := [] } [] (fun _ => { chunks := [] }) { chunks := [] }
     (by decide) (by decide) (by decide)⟩

/-- Claim C2: for every RAG-mode streaming request, the first emitted event
is the `Sources` event (before any `Content`), and the `Done` event occurs
exactly once, as the last event of the stream. -/
theorem rag_stream_sources_first_done_last_once
    (search_results : List RetrievedDoc) (gen : String → GenOutcome) :
    (handle_rag_stream search_results gen).head?
        = some (StreamEvent.sources (search_results.map streamSourceOf))
      ∧ (handle_rag_stream search_results gen).getLast? = some (StreamEvent.done none)
      ∧ ((handle_rag_stream search_results gen).filter isDoneEvent).length = 1 := by
  refine ⟨rfl, ?_, ?_⟩
  · show (StreamEvent.sources _ ::
      ((generate_response true _).map StreamEvent.content ++ [StreamEvent.done none])).getLast?
        = some (StreamEvent.done none)
    rw [← List.cons_append, List.getLast?_concat]
  · show ((StreamEvent.sources _ ::
      ((generate_response true _).map StreamEvent.content ++ [StreamEvent.done none])).filter
        isDoneEvent).length = 1
    simp [List.filter, isDoneEvent, List.filter_append, filter_done_map_content]

/-- Claim C9: `execute_function_call` is total at its interface — embedded
as a total function, it always returns a result with a Boolean `success`
field, and whenever `success` is false an error string is present (unknown
function, no matching active server, or a failed server call). -/
theorem execute_function_call_failure_has_error (reg : Registry)
    (net : MCPToolCall → NetOutcome) (function_name : String)
    (arguments : List (String × String))
    (h : (execute_function_call reg net function_name arguments).success = false) :
    ∃ msg, (execute_function_call reg net function_name arguments).error = some msg := by
  unfold execute_function_call at *
  cases hm : function_map.lookup function_name with
  | none => simp [hm]
  | some server_type =>
      cases hf : find_target_server reg server_type with
      | none => simp [hm, hf]
      | some target_server =>
          simp only [hm, hf] at h ⊢
          cases hs : (call_tool reg net
              { tool_name := function_name, server_id := target_server.id,
                parameters := arguments }).success with
          | true => simp [hs] at h
          | false =>
              have he := call_tool_failure_has_error reg net
                { tool_name := function_name, server_id := target_server.id,
                  parameters := arguments } hs
              cases hev : (call_tool reg net
                  { tool_name := function_name, server_id := target_server.id,
                    parameters := arguments }).error with
              | none => rw [hev] at he; simp at he
              | some msg => simp [hs, hev]

/-- Witness for C9: with an empty registry, `web_search` fails and carries
an error message. -/
theorem execute_function_call_failure_witness :
    (execute_function_call [] netStub "web_search" [("query", "x")]).success = false
      ∧ ∃ msg,
          (execute_function_call [] netStub "web_search" [("query", "x")]).error
            = some msg :=
  ⟨by decide,
   execute_function_call_failure_has_error [] netStub "web_search" [("query", "x")]
     (by decide)⟩

theorem lookup_none_of_not_mem_keys (l : Registry) (a : String)
    (h : a ∉ l.map Prod.fst) : l.lookup a = none := by
  induction l with
  | nil => rfl
  | cons p rest ih =>
      obtain ⟨k, v⟩ := p
      rw [List.map_cons] at h
      simp only [List.mem_cons, not_or] at h
      have hb : (a == k) = false := beq_eq_false_iff_ne.mpr h.1
      simp only [List.lookup_cons, hb]
      exact ih h.2

theorem mem_keys_of_lookup_isSome (l : Registry) (a : String)
    (h : (l.lookup a).isSome = true) : a ∈ l.map Prod.fst := by
  by_contra hc
  rw [lookup_none_of_not_mem_keys l a hc] at h
  simp at h

theorem lookup_eraseP_self (l : Registry) (sid : String)
    (hnd : (l.map Prod.fst).Nodup) :
    (l.eraseP (fun p => p.1 = sid)).lookup sid = none := by
  induction l with
  | nil => rfl
  | cons p rest ih =>
      obtain ⟨k, v⟩ := p
      rw [List.map_cons, List.nodup_cons] at hnd
      by_cases hk : k = sid
      · subst hk
        simp only [List.eraseP_cons, decide_True, eq_self_iff_true, Bool.cond_true]
        exact lookup_none_of_not_mem_keys rest k hnd.1
      · have hd : (decide ((k, v).1 = sid)) = false := by simp [hk]
        have hb : (sid == k) = false := beq_eq_false_iff_ne.mpr (Ne.symm hk)
        simp only [List.eraseP_cons, hd, Bool.cond_false, List.lookup_cons, hb]
        exact ih hnd.2

theorem lookup_eraseP_other (l : Registry) (sid k : String) (hk : k ≠ sid) :
    (l.eraseP (fun p => p.1 = sid)).lookup k = l.lookup k := by
  induction l with
  | nil => rfl
  | cons p rest ih =>
      obtain ⟨k', v⟩ := p
      by_cases hk' : k' = sid
      · subst hk'
        have hb : (k == k') = false := beq_eq_false_iff_ne.mpr hk
        simp only [List.eraseP_cons, decide_True, eq_self_iff_true, Bool.cond_true,
          List.lookup_cons, hb]
      · have hd : (decide ((k', v).1 = sid)) = false := by simp [hk']
        by_cases he : k' = k
        · subst he
          simp only [List.eraseP_cons, hd, Bool.cond_false, List.lookup_cons,
            beq_self_eq_true]
        · have hb : (k == k') = false := beq_eq_false_iff_ne.mpr (Ne.symm he)
          simp only [List.eraseP_cons, hd, Bool.cond_false, List.lookup_cons, hb]
          exact ih

theorem length_eraseP_of_mem_keys (l : Registry) (sid : String)
    (h : sid ∈ l.map Prod.fst) :
    (l.eraseP (fun p => p.1 = sid)).length + 1 = l.length := by
  induction l with
  | nil => simp at h
  | cons p rest ih =>
      obtain ⟨k, v⟩ := p
      by_cases hk : k = sid
      · subst hk
        simp [List.eraseP_cons]
      · rw [List.map_cons, List.mem_cons] at h
        have h' : sid ∈ rest.map Prod.fst := h.resolve_left (fun he => hk he.symm)
        have hd : (decide ((k, v).1 = sid)) = false := by simp [hk]
        simp only [List.eraseP_cons, hd, Bool.cond_false, List.length_cons]
        have := ih h'
        omega

theorem lookup_update_self (l : Registry) (sid : String) (s : MCPServer)
    (h : l.lookup sid = some s) :
    (l.map (fun p =>
        if p.1 = sid then (p.1, { p.2 with is_active := false }) else p)).lookup sid
      = some { s with is_active := false } := by
  induction l with
  | nil => simp [List.lookup] at h
  | cons p rest ih =>
      obtain ⟨k, v⟩ := p
      by_cases hk : k = sid
      · subst hk
        simp only [List.lookup_cons, beq_self_eq_true] at h
        have hv : v = s := Option.some_inj.mp h
        subst hv
        simp only [List.map_cons, eq_self_iff_true, if_true, List.lookup_cons,
          beq_self_eq_true]
      · have hb : (sid == k) = false := beq_eq_false_iff_ne.mpr (Ne.symm hk)
        simp only [List.lookup_cons, hb] at h
        simp only [List.map_cons, if_neg hk, List.lookup_cons, hb]
        exact ih h

theorem lookup_update_other (l : Registry) (sid k : String) (hk : k ≠ sid) :
    (l.map (fun p =>
        if p.1 = sid then (p.1, { p.2 with is_active := false }) else p)).lookup k
      = l.lookup k := by
  induction l with
  | nil => rfl
  | cons p rest ih =>
      obtain ⟨k', v⟩ := p
      by_cases hk' : k' = sid
      · subst hk'
        have hb : (k == k') = false := beq_eq_false_iff_ne.mpr hk
        simp only [List.map_cons, eq_self_iff_true, if_true, List.lookup_cons, hb]
        exact ih
      · by_cases he : k' = k
        · subst he
          simp only [List.map_cons, if_neg hk', List.lookup_cons, beq_self_eq_true]
        · have hb : (k == k') = false := beq_eq_false_iff_ne.mpr (Ne.symm he)
          simp only [List.map_cons, if_neg hk', List.lookup_cons, hb]
          exact ih

theorem keys_update (l : Registry) (sid : String) :
    (l.map (fun p =>
        if p.1 = sid then (p.1, { p.2 with is_active := false }) else p)).map Prod.fst
      = l.map Prod.fst := by
  induction l with
  | nil => rfl
  | cons p rest ih =>
      obtain ⟨k, v⟩ := p
      by_cases hk : k = sid <;> simp [hk, ih]

/-- Claim C10: for an unregistered server id, `remove_server` and
`deactivate_server` return `False` and leave the registry unchanged; for a
registered id (registry keys are unique, as in a Python dict),
`remove_server` deletes exactly that entry (its key no longer resolves,
every other key resolves as before, the size drops by one) and
`deactivate_server` clears exactly that entry's `is_active` flag (every
other key resolves as before and the key sequence is unchanged); both
return `True`. -/
theorem registry_remove_deactivate_frame (reg : Registry) (sid : String)
    (hnd : (reg.map Prod.fst).Nodup) :
    (reg.lookup sid = none →
        remove_server reg sid = (false, reg)
          ∧ deactivate_server reg sid = (false, reg))
      ∧ ∀ s, reg.lookup sid = some s →
          (remove_server reg sid).1 = true
            ∧ (remove_server reg sid).2.lookup sid = none
            ∧ (∀ k, k ≠ sid → (remove_server reg sid).2.lookup k = reg.lookup k)
            ∧ (remove_server reg sid).2.length + 1 = reg.length
            ∧ (deactivate_server reg sid).1 = true
            ∧ (deactivate_server reg sid).2.lookup sid
                = some { s with is_active := false }
            ∧ (∀ k, k ≠ sid → (deactivate_server reg sid).2.lookup k = reg.lookup k)
            ∧ (deactivate_server reg sid).2.map Prod.fst = reg.map Prod.fst := by
  constructor
  · intro h
    rw [remove_server, deactivate_server, h]
    simp
  · intro s h
    have hsome : (reg.lookup sid).isSome = true := by rw [h]; rfl
    simp only [remove_server, deactivate_server, hsome, if_true]
    refine ⟨trivial, lookup_eraseP_self reg sid hnd,
      fun k hk => lookup_eraseP_other reg sid k hk,
      length_eraseP_of_mem_keys reg sid (mem_keys_of_lookup_isSome reg sid hsome),
      trivial, lookup_update_self reg sid s h,
      fun k hk => lookup_update_other reg sid k hk,
      keys_update reg sid⟩

/-- Witness for C10 on a concrete two-server registry: removing and
deactivating the registered id "srv-1", and both operations on the
unregistered id "nope". -/
theorem registry_remove_deactivate_witness :
    remove_server regTwo "nope" = (false, regTwo)
      ∧ (remove_server regTwo "srv-1").1 = true
      ∧ (remove_server regTwo "srv-1").2.lookup "srv-1" = none
      ∧ (deactivate_server regTwo "srv-1").2.lookup "srv-1"
          = some { pubmedServer with is_active := false } := by
  have h := registry_remove_deactivate_frame regTwo "srv-1" (by decide)
  have h2 := (h.2 pubmedServer (by decide))
  have hn := registry_remove_deactivate_frame regTwo "nope" (by decide)
  exact ⟨(hn.1 (by decide)).1, h2.1, h2.2.1, h2.2.2.2.2.2.1⟩

theorem infix_data_append_left (l : List Char) (u t : String)
    (h : l <:+: u.data) : l <:+: (u ++ t).data := by
  rw [String.data_append]
  exact h.trans (List.prefix_append u.data t.data).isInfix

theorem infix_data_append_right (l : List Char) (u t : String)
    (h : l <:+: t.data) : l <:+: (u ++ t).data := by
  rw [String.data_append]
  exact h.trans (List.suffix_append u.data t.data).isInfix

theorem chunk_infix_contextPart (i : Nat) (d : RetrievedDoc) :
    d.chunk.data <:+: (contextPart i d).data := by
  by_cases hc : d.chunk = ""
  · rw [hc]
    exact List.nil_infix
  · have h2 : d.chunk.data <:+: (fieldLine "Content: " d.chunk).data := by
      rw [fieldLine, if_pos hc, String.data_append, String.data_append]
      exact List.infix_append "Content: ".data d.chunk.data "\n".data
    unfold contextPart
    apply infix_data_append_left
    apply infix_data_append_left
    apply infix_data_append_left
    exact infix_data_append_right _ _ _ h2

theorem mem_infix_pyJoin (sep : String) (parts : List String) (p : String)
    (hp : p ∈ parts) : p.data <:+: (pyJoin sep parts).data := by
  induction parts with
  | nil => cases hp
  | cons q rest ih =>
      rcases List.mem_cons.mp hp with he | hm
      · subst he
        cases rest with
        | nil => exact List.infix_rfl
        | cons r rs =>
            show p.data <:+: (p ++ sep ++ pyJoin sep (r :: rs)).data
            apply infix_data_append_left
            exact infix_data_append_left _ _ _ List.infix_rfl
      · cases rest with
        | nil => cases hm
        | cons r rs =>
            show p.data <:+: (q ++ sep ++ pyJoin sep (r :: rs)).data
            exact infix_data_append_right _ _ _ (ih hm)

theorem mem_enumFrom_of_mem {α : Type} (d : α) :
    ∀ (l : List α) (n : Nat), d ∈ l → ∃ i, (i, d) ∈ List.enumFrom n l := by
  intro l
  induction l with
  | nil => intro n h; cases h
  | cons q rest ih =>
      intro n h
      rcases List.mem_cons.mp h with he | hm
      · subst he
        exact ⟨n, List.mem_cons_self _ _⟩
      · obtain ⟨i, hi⟩ := ih (n + 1) hm
        exact ⟨i, List.mem_cons_of_mem _ hi⟩

/-- Claim C7: the caller-facing preview of a retrieved document in the
streamed `Sources` payload is the first 200 characters plus the "..."
marker when the chunk exceeds 200 characters, and the unmodified chunk
otherwise, while the context string handed to the Generation Client still
contains the full untruncated chunk text. -/
theorem source_preview_truncation_and_full_context
    (docs : List RetrievedDoc) (d : RetrievedDoc) (hmem : d ∈ docs) :
    (200 < d.chunk.length →
        (streamSourceOf d).content = pyTake d.chunk 200 ++ "..."
          ∧ (pyTake d.chunk 200).length = 200)
      ∧ (d.chunk.length ≤ 200 → (streamSourceOf d).content = d.chunk)
      ∧ d.chunk.data <:+: (format_rag_context docs).data := by
  refine ⟨fun h => ⟨?_, ?_⟩, fun h => ?_, ?_⟩
  · show sourcePreview d.chunk = pyTake d.chunk 200 ++ "..."
    rw [sourcePreview, if_pos h]
  · show (String.mk (d.chunk.data.take 200)).length = 200
    have hlen : d.chunk.length = d.chunk.data.length := rfl
    show (d.chunk.data.take 200).length = 200
    rw [List.length_take]
    omega
  · show sourcePreview d.chunk = d.chunk
    rw [sourcePreview, if_neg (by omega)]
  · have hne : docs.isEmpty = false := by
      cases docs with
      | nil => cases hmem
      | cons a l => rfl
    rw [format_rag_context, hne]
    simp only [Bool.false_eq_true, if_false]
    obtain ⟨i, hi⟩ := mem_enumFrom_of_mem d docs 0 hmem
    have hmemp : contextPart (i + 1) d ∈
        docs.enum.map (fun p => contextPart (p.1 + 1) p.2) :=
      List.mem_map.mpr ⟨(i, d), hi, rfl⟩
    exact (chunk_infix_contextPart (i + 1) d).trans
      (mem_infix_pyJoin "\n---\n"
        (docs.enum.map (fun p => contextPart (p.1 + 1) p.2))
        (contextPart (i + 1) d) hmemp)

/-- Witness for C7 at a 250-character and a 150-character chunk. -/
theorem source_preview_truncation_witness :
    200 < chunk250.length
      ∧ (streamSourceOf doc250).content = pyTake chunk250 200 ++ "..."
      ∧ (pyTake chunk250 200).length = 200
      ∧ chunk150.length ≤ 200
      ∧ (streamSourceOf doc150).content = chunk150
      ∧ chunk250.data <:+: (format_rag_context [doc250, doc150]).data := by
  have h250 := source_preview_truncation_and_full_context [doc250, doc150] doc250
    (List.mem_cons_self _ _)
  have h150 := source_preview_truncation_and_full_context [doc250, doc150] doc150
    (List.mem_cons_of_mem _ (List.mem_cons_self _ _))
  have hgt : (200 : Nat) < chunk250.length := by
    show 200 < (List.replicate 250 'x').length
    rw [List.length_replicate]
    omega
  have hle : chunk150.length ≤ 200 := by
    show (List.replicate 150 'y').length ≤ 200
    rw [List.length_replicate]
    omega
  exact ⟨hgt, (h250.1 hgt).1, (h250.1 hgt).2, hle, h150.2.1 hle, h250.2.2⟩

theorem agentLoop_eq (reg : Registry) (net : MCPToolCall → NetOutcome)
    (cs : List AgentChunk) (trace : List TraceEntry) :
    agentLoop reg net cs trace
      = cs.flatMap (chunkEvents reg net)
          ++ [StreamEvent.done (some (trace ++ cs.flatMap (chunkTrace reg net)))] := by
  induction cs generalizing trace with
  | nil => simp [agentLoop]
  | cons c rest ih =>
      cases c with
      | content s => simp [agentLoop, chunkEvents, chunkTrace, ih]
      | tool_calls calls =>
          simp [agentLoop, chunkEvents, chunkTrace, ih, List.append_assoc]
      | error s => simp [agentLoop, chunkEvents, chunkTrace, ih]

theorem agentCollect_eq (reg : Registry) (net : MCPToolCall → NetOutcome)
    (cs : List AgentChunk) (response_text : String) (tool_calls : List TraceEntry) :
    agentCollect reg net cs response_text tool_calls
      = (response_text ++ chunksText cs,
         tool_calls ++ cs.flatMap (chunkTrace reg net)) := by
  induction cs generalizing response_text tool_calls with
  | nil => simp [agentCollect, chunksText]
  | cons c rest ih =>
      cases c with
      | content s =>
          simp [agentCollect, chunksText, chunkText, chunkTrace, ih,
            String.append_assoc]
      | tool_calls calls =>
          simp [agentCollect, chunksText, chunkText, chunkTrace, ih,
            List.append_assoc, String.empty_append]
      | error s =>
          simp [agentCollect, chunksText, chunkText, chunkTrace, ih,
            String.empty_append]

theorem streamText_chunkEvents (reg : Registry) (net : MCPToolCall → NetOutcome)
    (cs : List AgentChunk) :
    streamText (cs.flatMap (chunkEvents reg net)) = chunksText cs := by
  induction cs with
  | nil => rfl
  | cons c rest ih =>
      rw [List.flatMap_cons, streamText_append, ih]
      cases c with
      | content s => simp [chunkEvents, chunksText, streamText, eventText,
          chunkText, String.append_assoc]
      | tool_calls calls =>
          simp only [chunkEvents, chunksText, chunkText, streamText_map_action,
            String.empty_append]
      | error s => simp [chunkEvents, chunksText, chunkText, streamText,
          eventText, String.empty_append]

/-- Claim C3 counterexample: with a Generation Client that fails with
message "boom", the Ask-mode stream delivers the failure as an ordinary
`content` event followed by a normal `done` — not as a terminal `error`
event — and the non-streaming path returns it as the text of an ordinary
successful response. -/
theorem gen_failure_as_content_counterexample :
    handle_ask_stream { chunks := [], failure := some "boom" }
        = [StreamEvent.content "Error generating response: boom",
           StreamEvent.done none]
      ∧ handle_ask_nostream { chunks := [], failure := some "boom" }
        = { response := "Error generating response: boom", mode := ChatMode.ask } := by
  exact ⟨by decide, by decide⟩

/-- Claim C3 (amended): when the Generation Client fails, `generate_response`
swallows the exception, so in Ask and RAG modes the failure is delivered as
an ordinary `Content` chunk reading "Error generating response: <message>"
(after any fragments already delivered) and the stream still terminates
with `Done`; non-streaming requests return it as the text of an ordinary
`Response`.  In Agent mode the failure is delivered as an `Error` event
followed by the final `Done`.  The core consults the client's single
outcome once and performs no retry. -/
theorem gen_failure_delivered_as_content (msg : String) (chunks : List String)
    (docs : List RetrievedDoc) (achunks : List AgentChunk)
    (reg : Registry) (net : MCPToolCall → NetOutcome) :
    handle_ask_stream { chunks := chunks, failure := some msg }
        = chunks.map StreamEvent.content
            ++ [StreamEvent.content (genErrorText msg), StreamEvent.done none]
      ∧ handle_ask_nostream { chunks := chunks, failure := some msg }
        = { response := genErrorText msg, mode := ChatMode.ask }
      ∧ handle_rag_stream docs (fun _ => { chunks := chunks, failure := some msg })
        = StreamEvent.sources (docs.map streamSourceOf)
            :: (chunks.map StreamEvent.content
              ++ [StreamEvent.content (genErrorText msg), StreamEvent.done none])
      ∧ handle_rag_nostream docs (fun _ => { chunks := chunks, failure := some msg })
        = { response := genErrorText msg, mode := ChatMode.rag,
            sources := some (docs.map fullSourceOf) }
      ∧ handle_agent_stream reg net { chunks := achunks, failure := some msg }
        = achunks.flatMap (chunkEvents reg net)
            ++ [StreamEvent.error (genErrorText msg),
                StreamEvent.done (some (achunks.flatMap (chunkTrace reg net)))] := by
  refine ⟨?_, ?_, ?_, ?_, ?_⟩
  · simp [handle_ask_stream, generate_response, List.map_append]
  · simp [handle_ask_nostream, generate_response, joinChunks, String.append_empty]
  · simp [handle_rag_stream, generate_response, List.map_append]
  · simp [handle_rag_nostream, generate_response, joinChunks, String.append_empty]
  · rw [handle_agent_stream, generate_response_with_tools, agentLoop_eq]
    simp [chunkEvents, chunkTrace, List.flatMap_append]

/-- Claim C4 counterexample: for the invocation `web_search` with no active
matching server, the trace entry's error message is "No active server found
for web_search" — it names the requested function, and does not contain the
searched capability category "web-browse". -/
theorem dispatch_error_names_function_counterexample :
    (agentActionOf [] netStub
        { name := "web_search", arguments := [("query", "covid")] }).result
        = some { success := false,
                 error := some "No active server found for web_search" }
      ∧ function_map.lookup "web_search" = some "web-browse"
      ∧ strContains "No active server found for web_search" "web-browse" = false := by
  exact ⟨by decide, by decide, by decide⟩

/-- Claim C4 (amended): one tool round over an ordered sequence of
invocations yields exactly one trace entry per invocation, in the original
order; an invocation whose function maps to a category with no matching
active server yields an entry with `success = false` and a descriptive
error naming the requested function (not the searched category), and the
loop continues with the remaining invocations, never dropping or reordering
other entries. -/
theorem tool_round_trace_order_and_failures (reg : Registry)
    (net : MCPToolCall → NetOutcome) (calls : List ToolCallReq) :
    (calls.map (agentActionOf reg net)).length = calls.length
      ∧ ∀ i, i < calls.length →
          ∃ call, calls[i]? = some call
            ∧ (calls.map (agentActionOf reg net))[i]?
                = some (agentActionOf reg net call)
            ∧ (agentActionOf reg net call).action = call.name
            ∧ (agentActionOf reg net call).parameters = call.arguments
            ∧ (noMatchingActiveServer reg call.name = true →
                (agentActionOf reg net call).success = false
                  ∧ (agentActionOf reg net call).result
                    = some { success := false,
                             error := some
                               ("No active server found for " ++ call.name) }) := by
  refine ⟨List.length_map calls (agentActionOf reg net), fun i hi => ?_⟩
  have hc : calls[i]? = some calls[i] := List.getElem?_eq_getElem hi
  refine ⟨calls[i], hc, ?_, rfl, rfl, fun hno => ?_⟩
  · rw [List.getElem?_map, hc]
    rfl
  · have hfail : execute_function_call reg net calls[i].name calls[i].arguments
        = { success := false,
            error := some ("No active server found for " ++ calls[i].name) } := by
      rw [noMatchingActiveServer] at hno
      cases hm : function_map.lookup calls[i].name with
      | none => rw [hm] at hno; simp at hno
      | some server_type =>
          rw [hm] at hno
          simp only [Option.isNone_iff_eq_none] at hno
          simp only [execute_function_call, hm, hno]
    constructor
    · show (execute_function_call reg net calls[i].name calls[i].arguments).success
        = false
      rw [hfail]
    · show (agentActionOf reg net calls[i]).result = _
      rw [agentActionOf]
      rw [hfail]

/-- Witness for C4 (amended) at a concrete three-invocation round where the
second invocation has no matching active server. -/
theorem tool_round_trace_witness :
    ([{ name := "pubmed_search", arguments := [] },
      { name := "web_search", arguments := [] },
      { name := "read_file", arguments := [] }].map
        (agentActionOf regTwo netStub)).length = 3
      ∧ noMatchingActiveServer regTwo "web_search" = true
      ∧ (agentActionOf regTwo netStub { name := "web_search", arguments := [] }).success
        = false := by
  have h := tool_round_trace_order_and_failures regTwo netStub
    [{ name := "pubmed_search", arguments := [] },
     { name := "web_search", arguments := [] },
     { name := "read_file", arguments := [] }]
  have h1 := h.2 1 (by decide)
  obtain ⟨call, hc, hmap, hact, hpar, hfail⟩ := h1
  have hcall : call = { name := "web_search", arguments := [] } := by
    rw [show ([{ name := "pubmed_search", arguments := [] },
      { name := "web_search", arguments := [] },
      { name := "read_file", arguments := [] }] :
        List ToolCallReq)[1]? = some { name := "web_search", arguments := [] }
      from rfl] at hc
    exact (Option.some_inj.mp hc).symm
  refine ⟨h.1, by decide, ?_⟩
  have := (hfail (by rw [hcall]; decide)).1
  rw [hcall] at this
  exact this

/-- Claim C5 counterexample: with a deterministic Generation Client stub
that delivers the fragment "Partial. " and then fails with "timeout", the
Ask-mode streaming aggregate contains the delivered fragment plus the error
text, while the non-streaming response carries only the error text (the
single non-streaming call raises before yielding any content) — so the two
paths do not produce the same final aggregate response text. -/
theorem streaming_nonstreaming_divergence_counterexample :
    streamText (handle_ask_stream { chunks := ["Partial. "], failure := some "timeout" })
        = "Partial. Error generating response: timeout"
      ∧ (handle_ask_nostream
            { chunks := ["Partial. "], failure := some "timeout" }).response
        = "Error generating response: timeout"
      ∧ streamText (handle_ask_stream { chunks := ["Partial. "], failure := some "timeout" })
        ≠ (handle_ask_nostream
            { chunks := ["Partial. "], failure := some "timeout" }).response := by
  exact ⟨by decide, by decide, by decide⟩

/-- Claim C5 (amended): with identical deterministic stubs for the
retrieval, generation and tool clients, streaming and non-streaming
produce the same final action trace (in agent mode, for every stub: the
streaming path's terminal `done` event carries exactly the non-streaming
path's final trace), and the same final aggregate response text whenever
the generation stub does not fail — in agent mode for every stub, in Ask
and RAG mode under a non-failing stub, the only restriction the
mid-stream-failure divergence forces; the non-streaming handlers return
one aggregate `ChatResponse` value, so no partial output is
observable. -/
theorem streaming_nonstreaming_equivalence
    (reg : Registry) (net : MCPToolCall → NetOutcome) (genAgent : AgentGenOutcome)
    (docs : List RetrievedDoc) (genRag : String → GenOutcome) (genAsk : GenOutcome)
    (hr : (genRag (format_rag_context docs)).failure = none)
    (ha : genAsk.failure = none) :
    streamText (handle_agent_stream reg net genAgent)
        = (handle_agent_nostream reg net genAgent).response
      ∧ (handle_agent_stream reg net genAgent).getLast?
        = some (StreamEvent.done (handle_agent_nostream reg net genAgent).tool_calls)
      ∧ streamText (handle_ask_stream genAsk) = (handle_ask_nostream genAsk).response
      ∧ streamText (handle_rag_stream docs genRag)
        = (handle_rag_nostream docs genRag).response := by
  refine ⟨?_, ?_, ?_, ?_⟩
  · rw [handle_agent_stream, agentLoop_eq, streamText_append, streamText_chunkEvents]
    simp [handle_agent_nostream, agentCollect_eq, streamText, eventText,
      String.append_empty, String.empty_append]
  · rw [handle_agent_stream, agentLoop_eq]
    simp [handle_agent_nostream, agentCollect_eq, List.getLast?_concat]
  · rw [handle_ask_stream, streamText_append, streamText_map_content]
    simp [handle_ask_nostream, generate_response, ha, streamText, eventText,
      joinChunks, String.append_empty, List.append_nil]
  · simp only [handle_rag_stream, handle_rag_nostream]
    simp only [streamText, List.append_eq]
    rw [streamText_append, streamText_map_content]
    simp [generate_response, hr, streamText, eventText, joinChunks,
      String.append_empty, String.empty_append, List.append_nil]

/-- Witness for C5 with concrete deterministic stubs. -/
theorem streaming_nonstreaming_equivalence_witness :
    (genRagFix (format_rag_context [doc150])).failure = none
      ∧ genAskFix.failure = none
      ∧ streamText (handle_agent_stream regTwo netStub agentGenFix)
        = (handle_agent_nostream regTwo netStub agentGenFix).response
      ∧ (handle_agent_stream regTwo netStub agentGenFix).getLast?
        = some (StreamEvent.done (handle_agent_nostream regTwo netStub agentGenFix).tool_calls)
      ∧ streamText (handle_rag_stream [doc150] genRagFix)
        = (handle_rag_nostream [doc150] genRagFix).response := by
  have h := streaming_nonstreaming_equivalence regTwo netStub agentGenFix
    [doc150] genRagFix genAskFix rfl rfl
  exact ⟨rfl, rfl, h.1, h.2.1, h.2.2.2⟩

theorem agentRoundLoop_characterization (reg : Registry)
    (net : MCPToolCall → NetOutcome) (client : Nat → RoundOut)
    (h : ∀ n, (client n).requestsTools = true) :
    ∀ (fuel round : Nat) (trace : List TraceEntry) (events : List StreamEvent),
    agentRoundLoop reg net client fuel round trace events
      = { events := events
              ++ (roundEntries reg net client round fuel).map StreamEvent.action
              ++ [StreamEvent.error "ToolRoundLimitExceeded"],
          trace := trace ++ roundEntries reg net client round fuel } := by
  intro fuel
  induction fuel with
  | zero =>
      intro round trace events
      simp [agentRoundLoop, roundEntries]
  | succ n ih =>
      intro round trace events
      have ht := h round
      cases hcr : client round with
      | finish text => rw [hcr] at ht; simp [RoundOut.requestsTools] at ht
      | tools calls =>
          simp only [agentRoundLoop, hcr]
          rw [ih]
          simp [roundEntries, hcr, RoundOut.callsOf, List.append_assoc,
            List.map_append]

/-- Claim C1 (modelled from the spec, which mandates the round limit the
source lacks): when the Generation Client requests tool calls on every
round, the round-limited agent orchestrator stops after exactly the
configured maximum number of tool rounds (default 8), its event stream
consists of the `Action` events of those rounds and terminates with the
`ToolRoundLimitExceeded` error event, and the accumulated action trace up
to that point is kept. -/
theorem tool_round_limit_terminates (reg : Registry)
    (net : MCPToolCall → NetOutcome) (client : Nat → RoundOut) (maxRounds : Nat)
    (h : ∀ n, (client n).requestsTools = true) :
    (run_agent_with_limit reg net client maxRounds).events
        = (roundEntries reg net client 0 maxRounds).map StreamEvent.action
            ++ [StreamEvent.error "ToolRoundLimitExceeded"]
      ∧ (run_agent_with_limit reg net client maxRounds).trace
        = roundEntries reg net client 0 maxRounds
      ∧ (run_agent_with_limit reg net client maxRounds).events.getLast?
        = some (StreamEvent.error "ToolRoundLimitExceeded")
      ∧ defaultMaxToolRounds = 8 := by
  have he := agentRoundLoop_characterization reg net client h maxRounds 0 [] []
  refine ⟨?_, ?_, ?_, rfl⟩
  · rw [run_agent_with_limit, he]
    simp
  · rw [run_agent_with_limit, he]
    simp
  · rw [run_agent_with_limit, he]
    simp [List.getLast?_concat]

/-- Witness for C1: a client stub that always requests another tool call,
run with the default limit of 8 rounds. -/
theorem tool_round_limit_witness :
    (run_agent_with_limit regTwo netStub alwaysToolsClient
        defaultMaxToolRounds).events.getLast?
        = some (StreamEvent.error "ToolRoundLimitExceeded")
      ∧ (run_agent_with_limit regTwo netStub alwaysToolsClient
          defaultMaxToolRounds).trace
        = roundEntries regTwo netStub alwaysToolsClient 0 8 := by
  have h := tool_round_limit_terminates regTwo netStub alwaysToolsClient
    defaultMaxToolRounds (fun n => rfl)
  exact ⟨h.2.2.1, h.2.1⟩

end MedAgent
